import Mathlib

/-!
Verification of the Dune CSV downloader (src/csv_downloader.py).

The development shallowly embeds the pure core of the program:

* `safe_filename` — the filename sanitizer (lines 20-24 of the source):
  Python `str.strip`, the substitution of `\s+` by a space, the
  substitution of `[\\/:"*?<>|]+` by an underscore, and the
  `name or default` fallback.  Strings are modelled as `List Char`
  (with `String` wrappers); Python whitespace is modelled by its ASCII
  fragment (space, tab, newline, carriage return, vertical tab, form
  feed), which is exact on all inputs the claims mention.
* `normalize` — the behaviour of `pd.DataFrame(rows)` on a list of JSON
  records: the column sequence is the union of the keys of all rows in
  order of first appearance, and every row is reindexed over those columns,
  with a missing key filled by the null-like marker (`Option.none` here,
  `NaN` in pandas).
* `convert_df_to_csv` — `df.to_csv(index=False).encode("utf-8")`:
  header line, one line per row, comma separated, minimal quoting,
  trailing newline, then UTF-8 byte encoding.
* `fetchHandler` / `rerun` — the session-state transitions of the
  Streamlit fetch handler (lines 65-106) and of an input-editing rerun
  (lines 41-59), with the download section (lines 110-136) as a pure
  reader of the stored payload.
-/

namespace Dune

/-- Whitespace as recognised by Python `str.strip` and the regex class
`\s`, restricted to ASCII: space, tab, newline, carriage return, vertical
tab, form feed. -/
def isPySpace (c : Char) : Bool :=
  c = ' ' || c = '\t' || c = '\n' || c = '\r' || c = '\x0b' || c = '\x0c'

/-- Characters of the reserved class `[\\/:"*?<>|]` in line 23 of the
source. -/
def isReserved (c : Char) : Bool :=
  c = '\\' || c = '/' || c = ':' || c = '"' || c = '*' || c = '?' ||
  c = '<' || c = '>' || c = '|'

/-- Python `name.strip()` (line 21): remove leading and trailing
whitespace. -/
def pyStrip (l : List Char) : List Char :=
  (((l.dropWhile fun c => isPySpace c).reverse.dropWhile
      fun c => isPySpace c)).reverse

/-- Regex substitution of every maximal whitespace run by one space,
written with an explicit in-run flag so that it computes by structural
recursion: when the flag is set the previous character was whitespace and
the run marker has already been emitted. -/
def collapseWSAux : Bool → List Char → List Char
  | _, [] => []
  | inRun, c :: rest =>
    if isPySpace c then
      if inRun then collapseWSAux true rest
      else ' ' :: collapseWSAux true rest
    else c :: collapseWSAux false rest

/-- Python `re.sub` of `\s+` by a single space (line 22). -/
def collapseWS (l : List Char) : List Char :=
  collapseWSAux false l

/-- Regex substitution of every maximal run of reserved characters by one
underscore, with the same in-run flag technique. -/
def replaceReservedAux : Bool → List Char → List Char
  | _, [] => []
  | inRun, c :: rest =>
    if isReserved c then
      if inRun then replaceReservedAux true rest
      else '_' :: replaceReservedAux true rest
    else c :: replaceReservedAux false rest

/-- Python `re.sub` of `[\\/:"*?<>|]+` by a single underscore
(line 23). -/
def replaceReserved (l : List Char) : List Char :=
  replaceReservedAux false l

/-- Lines 21-23 of the source: the sanitising pipeline before the
fallback. -/
def cleanCore (l : List Char) : List Char :=
  replaceReserved (collapseWS (pyStrip l))

/-- Source function `safe_filename(name, default)` (lines 20-24);
`name or default` returns `default` exactly when the sanitised name is
the empty string. -/
def safe_filename (name default : String) : String :=
  let n := cleanCore name.data
  if n = [] then default else ⟨n⟩

example : safe_filename "" "d" = "d" := by decide
example : safe_filename "a/b:c" "d" = "a_b_c" := by decide
example : safe_filename "a//b" "d" = "a_b" := by decide
example : safe_filename "  x   y  " "d" = "x y" := by decide
example : safe_filename " \t " "fb" = "fb" := by decide
example : safe_filename "a \t b" "fb" = "a b" := by decide
example : safe_filename "<>|" "fb" = "_" := by decide

/-- Scalar JSON values appearing in a result row.  The claims only
exercise integer and string cells; this is the fragment the embedding
carries. -/
inductive JVal where
  | jint (n : Int)
  | jstr (s : String)
deriving DecidableEq

/-- One JSON record of `result.rows`: an ordered association list of
key-value pairs, as produced by a Python `dict` (insertion order, unique
keys). -/
abbrev Row : Type := List (String × JVal)

/-- Keys of a record, in their original order. -/
def rowKeys (r : Row) : List String :=
  r.map Prod.fst

/-- Python `dict` lookup on a record (`None`-returning form). -/
def lookupKey (r : Row) (k : String) : Option JVal :=
  (r.find? fun kv => kv.1 = k).map Prod.snd

/-- Table produced by `pd.DataFrame(rows)` (line 74 of the source):
a column sequence and, for each input row, a cell sequence aligned with
the columns; `none` is the null-like missing-value marker (`NaN` in
pandas). -/
structure ResultTable where
  columns : List String
  rows : List (List (Option JVal))
deriving DecidableEq

/-- Fold step of the pandas column-collection pass: append the keys of
one record that were not seen before, in record order. -/
def addKeys (acc : List String) (r : Row) : List String :=
  r.foldl (fun a kv => if kv.1 ∈ a then a else a ++ [kv.1]) acc

/-- Columns chosen by `pd.DataFrame` for a list of records: the union of
all keys, ordered by first appearance (first record first). -/
def dfColumns (rows : List Row) : List String :=
  rows.foldl addKeys []

/-- Model of `pd.DataFrame(rows)` on a list of JSON records (line 74):
every row is reindexed over the collected columns, missing keys becoming
the missing-value marker. -/
def normalize (rows : List Row) : ResultTable :=
  let cols := dfColumns rows
  { columns := cols
    rows := rows.map fun r => cols.map fun k => lookupKey r k }

/-- Model of `df.head(n)` (line 84): the first `n` rows, same columns. -/
def tableHead (n : Nat) (t : ResultTable) : ResultTable :=
  { columns := t.columns, rows := t.rows.take n }

/-- Minimal quoting rule of the Python `csv` writer: a field is quoted
when it contains the delimiter, the quote character, or a line break. -/
def csvNeedsQuote (s : List Char) : Bool :=
  s.any fun c => c = ',' || c = '"' || c = '\n' || c = '\r'

/-- Quote doubling inside a quoted CSV field. -/
def csvEscape (s : List Char) : List Char :=
  s.flatMap fun c => if c = '"' then ['"', '"'] else [c]

/-- Rendering of one CSV field under minimal quoting. -/
def csvField (s : String) : String :=
  if csvNeedsQuote s.data then ⟨'"' :: (csvEscape s.data ++ ['"'])⟩ else s

/-- Rendering of one table cell by `df.to_csv`: integers in decimal,
strings under minimal quoting, the missing-value marker as an empty
field.  (The pandas promotion of an integer column that contains a
missing value to floating point is outside the fragment any claim
exercises and is not modelled.) -/
def csvCell : Option JVal → String
  | none => ""
  | some (.jint n) => toString n
  | some (.jstr s) => csvField s

/-- One CSV line: fields joined by commas, terminated by a newline. -/
def csvLine (cells : List String) : String :=
  String.intercalate "," cells ++ "\n"

/-- Model of `df.to_csv(index=False)` (line 11): a header line with the
column names followed by one line per row, no index column, trailing
newline. -/
def toCsvNoIndex (t : ResultTable) : String :=
  csvLine (t.columns.map csvField) ++
    String.join (t.rows.map fun r => csvLine (r.map csvCell))

/-- UTF-8 encoding of one character, as a list of byte values. -/
def utf8EncodeCharNat (c : Char) : List Nat :=
  let n := c.toNat
  if n < 0x80 then [n]
  else if n < 0x800 then [0xC0 + n / 64, 0x80 + n % 64]
  else if n < 0x10000 then
    [0xE0 + n / 4096, 0x80 + (n / 64) % 64, 0x80 + n % 64]
  else
    [0xF0 + n / 262144, 0x80 + (n / 4096) % 64, 0x80 + (n / 64) % 64,
     0x80 + n % 64]

/-- Python `s.encode("utf-8")`: the UTF-8 byte sequence of a string. -/
def utf8Bytes (s : String) : List Nat :=
  s.data.flatMap utf8EncodeCharNat

/-- Source function `convert_df_to_csv(df)` (lines 9-11):
`df.to_csv(index=False).encode("utf-8")`. -/
def convert_df_to_csv (t : ResultTable) : List Nat :=
  utf8Bytes (toCsvNoIndex t)

example :
    normalize [[("a", .jint 1), ("b", .jint 2)],
               [("b", .jint 3), ("a", .jint 4)]] =
      { columns := ["a", "b"]
        rows := [[some (.jint 1), some (.jint 2)],
                 [some (.jint 4), some (.jint 3)]] } := by decide

example :
    toCsvNoIndex (normalize [[("a", .jint 1), ("b", .jint 2)],
                             [("b", .jint 3), ("a", .jint 4)]]) =
      "a,b\n1,2\n4,3\n" := by decide

example :
    (normalize [[("a", .jint 1)], [("b", .jint 2)]]).columns =
      ["a", "b"] := by decide

/-- JSON body of a successful HTTP response, classified by the check in
line 72 of the source: either it contains `result.rows`, or it is some
other JSON value (kept opaque as a description string). -/
inductive RawResult where
  | withRows (rows : List Row)
  | malformed (desc : String)
deriving DecidableEq

/-- Outcome of the single `requests.get` call in `fetch_dune_data`
(lines 13-18): a 2xx response with a JSON body, a non-2xx status turned
into `requests.exceptions.HTTPError` by `raise_for_status`, a
transport-level `requests.exceptions.RequestException`, or any other
exception. -/
inductive FetchOutcome where
  | success (resp : RawResult)
  | httpError (status : Nat) (reason : String)
  | networkError (detail : String)
  | otherError (detail : String)
deriving DecidableEq

/-- User-visible message emitted during one rerun: `st.warning`,
`st.error`, `st.success`, or the raw-response dump `st.json`. -/
inductive Msg where
  | warning (text : String)
  | error (text : String)
  | success (text : String)
  | jsonDump (raw : RawResult)
deriving DecidableEq

/-- Stored download payload (lines 81-90 of the source). -/
structure DownloadPayload where
  csv_bytes : List Nat
  default_filename : String
  df_preview : ResultTable
  meta_rows : Nat
  meta_generated_at : String
  meta_query_id : Nat
deriving DecidableEq

/-- Session state of the app: the two input fields and the optional
download payload (lines 31-37 of the source). -/
structure SessionState where
  user_api_key : String
  query_id : Nat
  download_payload : Option DownloadPayload
deriving DecidableEq

/-- Default filename built in line 78:
`f"dune_query_(query id)_(utc timestamp).csv"`. -/
def defaultName (query_id : Nat) (utc_ts : String) : String :=
  "dune_query_" ++ toString query_id ++ "_" ++ utc_ts ++ ".csv"

/-- Handler of a click on the fetch button (lines 65-106 of the source).
`utc_ts` stands for the timestamp string computed in line 77, and
`outcome` for what the network returns on this attempt.  The result is
the new session state, the emitted messages in order, and whether the
network call was made at all. -/
def fetchHandler (st : SessionState) (utc_ts : String)
    (outcome : FetchOutcome) : SessionState × List Msg × Bool :=
  if st.user_api_key = "" then
    (st, [.warning "Please enter your Dune API key to proceed."], false)
  else
    match outcome with
    | .success (.withRows rows) =>
      let df := normalize rows
      let payload : DownloadPayload :=
        { csv_bytes := convert_df_to_csv df
          default_filename := defaultName st.query_id utc_ts
          df_preview := tableHead 200 df
          meta_rows := df.rows.length
          meta_generated_at := utc_ts
          meta_query_id := st.query_id }
      ({ st with download_payload := some payload },
       [.success ("Successfully retrieved " ++ toString df.rows.length ++
         " rows!")], true)
    | .success (.malformed d) =>
      ({ st with download_payload := none },
       [.error "API response not in expected format.",
        .jsonDump (.malformed d)], true)
    | .httpError status reason =>
      ({ st with download_payload := none },
       [.error ("HTTP error: " ++ toString status ++ " " ++ reason),
        .error "Check API key and Query ID."], true)
    | .networkError d =>
      ({ st with download_payload := none },
       [.error ("Network error: " ++ d)], true)
    | .otherError d =>
      ({ st with download_payload := none },
       [.error ("Unexpected error: " ++ d)], true)

/-- Re-rendering of the two input widgets at the top of a rerun
(lines 41-55): the session state takes the current widget values.  The
payload-invalidation assignment of line 59 is commented out in the
source, so `download_payload` is left untouched. -/
def rerunInputs (st : SessionState) (newKey : String) (newQid : Nat) :
    SessionState :=
  { st with user_api_key := newKey, query_id := newQid }

/-- One full rerun of the script body: inputs are re-read, then the
fetch handler runs exactly when the fetch button was clicked. -/
def rerun (st : SessionState) (newKey : String) (newQid : Nat)
    (fetchClicked : Bool) (utc_ts : String) (outcome : FetchOutcome) :
    SessionState × List Msg × Bool :=
  let st1 := rerunInputs st newKey newQid
  if fetchClicked then fetchHandler st1 utc_ts outcome
  else (st1, [], false)

/-- Prefix of a character list before the last occurrence of the
substring `.csv`, when there is one. -/
def beforeLastCsv : List Char → Option (List Char)
  | [] => none
  | c :: rest =>
    match beforeLastCsv rest with
    | some p => some (c :: p)
    | none =>
      if c = '.' ∧ rest.take 3 = ['c', 's', 'v'] then some [] else none

/-- Python `s.rsplit(".csv", 1)[0]` (lines 124 and 127): everything
before the last occurrence of `.csv`, or the whole string when the
substring does not occur. -/
def rsplitCsvBase (s : String) : String :=
  match beforeLastCsv s.data with
  | some p => ⟨p⟩
  | none => s

example : rsplitCsvBase "dune_query_1_t.csv" = "dune_query_1_t" := by
  decide
example : rsplitCsvBase "a.csv.b.csv" = "a.csv.b" := by decide
example : rsplitCsvBase "plain" = "plain" := by decide

/-- What the download section serves for a given payload: the persisted
CSV bytes, the final filename, the preview, and the metadata caption
(lines 110-136 of the source).  `raw_name` is the current content of the
filename text field. -/
structure ServedDownload where
  csv_bytes : List Nat
  file_name : String
  preview : ResultTable
  meta_rows : Nat
  meta_query_id : Nat
  meta_generated_at : String
deriving DecidableEq

/-- Rendering of the download section on one rerun: nothing when no
payload is stored, otherwise the artefacts served to the user, with the
filename recomputed as `safe_filename(raw_name, default base) + ".csv"`
(line 127). -/
def downloadSection (st : SessionState) (raw_name : String) :
    Option ServedDownload :=
  st.download_payload.map fun p =>
    { csv_bytes := p.csv_bytes
      file_name :=
        safe_filename raw_name (rsplitCsvBase p.default_filename) ++ ".csv"
      preview := p.df_preview
      meta_rows := p.meta_rows
      meta_query_id := p.meta_query_id
      meta_generated_at := p.meta_generated_at }

/-- Follows the words of claim C2: after trimming and whitespace
collapsing, replace each occurrence of a reserved character by one
underscore.  (The source instead replaces each maximal run of reserved
characters by a single underscore; the two readings are compared in the
C2 theorems.) -/
def sanitizeSpecC2 (name default : String) : String :=
  let n := (collapseWS (pyStrip name.data)).map
    fun c => if isReserved c then '_' else c
  if n = [] then default else ⟨n⟩

/-- Run replacement in the form of the amended claim words: on meeting a
character of the class, emit the marker once and drop the rest of the
maximal run. -/
def collapseRuns (p : Char → Bool) (r : Char) : List Char → List Char
  | [] => []
  | c :: rest =>
    if p c then r :: collapseRuns p r (rest.dropWhile p)
    else c :: collapseRuns p r rest
termination_by l => l.length
decreasing_by
  · simpa using Nat.lt_succ_of_le ((List.dropWhile_suffix _).length_le)
  · simp

/-- Amended specification of the sanitiser: trim, collapse each
whitespace run to one space, collapse each reserved-character run to one
underscore, and fall back to the default on an empty result. -/
def sanitizeRunsSpec (name default : String) : String :=
  let n := collapseRuns isReserved '_'
    (collapseRuns isPySpace ' ' (pyStrip name.data))
  if n = [] then default else ⟨n⟩

/-! Helper lemmas about the pandas column-collection pass. -/

theorem addKeys_nil_right (acc : List String) : addKeys acc [] = acc := rfl

theorem addKeys_cons (acc : List String) (kv : String × JVal) (r : Row) :
    addKeys acc (kv :: r) =
      addKeys (if kv.1 ∈ acc then acc else acc ++ [kv.1]) r := rfl

/-- Records whose keys are all already collected add nothing. -/
theorem addKeys_of_subset (r : Row) (acc : List String)
    (h : ∀ kv ∈ r, kv.1 ∈ acc) : addKeys acc r = acc := by
  induction r generalizing acc with
  | nil => rfl
  | cons kv r ih =>
    rw [addKeys_cons, if_pos (h kv (List.mem_cons_self kv r))]
    exact ih acc fun kv2 h2 => h kv2 (List.mem_cons_of_mem kv h2)

/-- A record with distinct keys, none collected yet, contributes exactly
its keys in order. -/
theorem addKeys_of_disjoint (r : Row) (acc : List String)
    (hnd : (rowKeys r).Nodup) (hdis : ∀ k ∈ rowKeys r, k ∉ acc) :
    addKeys acc r = acc ++ rowKeys r := by
  induction r generalizing acc with
  | nil => simp [addKeys_nil_right, rowKeys]
  | cons kv r ih =>
    have hcons : rowKeys (kv :: r) = kv.1 :: rowKeys r := rfl
    rw [hcons] at hnd hdis
    have hk : kv.1 ∉ acc := hdis kv.1 (List.mem_cons_self _ _)
    have hknr : kv.1 ∉ rowKeys r := (List.nodup_cons.1 hnd).1
    have hnd2 : (rowKeys r).Nodup := (List.nodup_cons.1 hnd).2
    have hdis2 : ∀ k ∈ rowKeys r, k ∉ acc ++ [kv.1] := by
      intro k hkm hmem
      rcases List.mem_append.1 hmem with h2 | h2
      · exact hdis k (List.mem_cons_of_mem _ hkm) h2
      · exact hknr ((List.mem_singleton.1 h2) ▸ hkm)
    rw [addKeys_cons, if_neg hk, ih (acc ++ [kv.1]) hnd2 hdis2, hcons]
    simp

/-- Later records whose keys are all already collected leave the column
list unchanged. -/
theorem foldl_addKeys_of_subset (rs : List Row) (acc : List String)
    (h : ∀ row ∈ rs, ∀ kv ∈ row, kv.1 ∈ acc) :
    rs.foldl addKeys acc = acc := by
  induction rs with
  | nil => rfl
  | cons row rs ih =>
    rw [List.foldl_cons,
        addKeys_of_subset row acc (h row (List.mem_cons_self row rs))]
    exact ih fun row2 h2 => h row2 (List.mem_cons_of_mem row h2)

/-! Character-class facts and shape predicates used to analyse the
sanitiser. -/

/-- Reserved characters and whitespace are disjoint classes. -/
theorem ws_not_reserved (c : Char) (h : isPySpace c = true) :
    isReserved c = false := by
  simp only [isPySpace, Bool.or_eq_true, decide_eq_true_eq] at h
  rcases h with (((((h | h) | h) | h) | h) | h) <;> subst h <;> decide

/-- First character (when any) is not whitespace. -/
def noLeadWS (l : List Char) : Bool :=
  l.head?.all fun c => !isPySpace c

/-- Last character (when any) is not whitespace. -/
def noTrailWS (l : List Char) : Bool :=
  l.getLast?.all fun c => !isPySpace c

/-- Normalised whitespace: every whitespace character is a plain space
and is not followed by another whitespace character. -/
def wsNorm : List Char → Bool
  | [] => true
  | c :: rest => (!isPySpace c || (c = ' ' && noLeadWS rest)) && wsNorm rest

/-- No reserved character occurs. -/
def noReserved (l : List Char) : Bool :=
  l.all fun c => !isReserved c

theorem noLeadWS_nil : noLeadWS [] = true := rfl

theorem noLeadWS_cons (c : Char) (l : List Char) :
    noLeadWS (c :: l) = !isPySpace c := rfl

/-- Dropping a whitespace prefix leaves no leading whitespace. -/
theorem noLeadWS_dropWhile (l : List Char) :
    noLeadWS (l.dropWhile fun c => isPySpace c) = true := by
  induction l with
  | nil => rfl
  | cons c rest ih =>
    rw [List.dropWhile_cons]
    by_cases h : isPySpace c = true
    · simpa [h] using ih
    · simp only [Bool.not_eq_true] at h
      simp [h, noLeadWS_cons]

/-- The whitespace-prefix drop is the identity without leading
whitespace. -/
theorem dropWhile_eq_self_of_noLead (l : List Char)
    (h : noLeadWS l = true) : (l.dropWhile fun c => isPySpace c) = l := by
  cases l with
  | nil => rfl
  | cons c rest =>
    rw [noLeadWS_cons, Bool.not_eq_eq_eq_not, Bool.not_true] at h
    simp [List.dropWhile_cons, h]

/-- Trailing shape transported through `reverse`. -/
theorem noLeadWS_reverse (l : List Char) :
    noLeadWS l.reverse = noTrailWS l := by
  simp [noLeadWS, noTrailWS, List.head?_reverse]

/-- Python `strip` output has no leading whitespace. -/
theorem noLeadWS_pyStrip (l : List Char) :
    noLeadWS (pyStrip l) = true := by
  unfold pyStrip
  set d1 := l.dropWhile fun c => isPySpace c with hd1
  set m := d1.reverse.dropWhile fun c => isPySpace c with hm
  cases hme : m with
  | nil => simp [hme, noLeadWS]
  | cons c rest =>
    have hne : m ≠ [] := by simp [hme]
    have hsuf : m <:+ d1.reverse := List.dropWhile_suffix _
    obtain ⟨t, ht⟩ := hsuf
    have hlast : m.getLast? = d1.reverse.getLast? := by
      rw [← ht]
      exact (List.getLast?_append_of_ne_nil t hne).symm
    have hlast2 : m.getLast? = d1.head? := by
      rw [hlast, List.getLast?_reverse]
    have hled : noLeadWS d1 = true := noLeadWS_dropWhile l
    rw [← hme]
    show noLeadWS m.reverse = true
    rw [noLeadWS_reverse]
    unfold noTrailWS
    rw [hlast2]
    cases hh : d1.head? with
    | none => rfl
    | some c2 =>
      simp only [Option.all_some]
      cases hdd : d1 with
      | nil => rw [hdd] at hh; simp at hh
      | cons c3 r3 =>
        rw [hdd] at hh
        simp only [List.head?_cons, Option.some.injEq] at hh
        have := hled
        rw [hdd, noLeadWS_cons] at this
        exact hh ▸ this

/-- Python `strip` output has no trailing whitespace. -/
theorem noTrailWS_pyStrip (l : List Char) :
    noTrailWS (pyStrip l) = true := by
  rw [← noLeadWS_reverse]
  unfold pyStrip
  rw [List.reverse_reverse]
  exact noLeadWS_dropWhile _

/-- Python `strip` is the identity on a list with clean edges. -/
theorem pyStrip_of_clean (l : List Char) (h1 : noLeadWS l = true)
    (h2 : noTrailWS l = true) : pyStrip l = l := by
  unfold pyStrip
  rw [dropWhile_eq_self_of_noLead l h1]
  rw [dropWhile_eq_self_of_noLead l.reverse (by rw [noLeadWS_reverse]; exact h2)]
  exact List.reverse_reverse l

/-! Shape lemmas for the whitespace-collapsing stage. -/

/-- In the in-run state the next emitted character is not whitespace. -/
theorem noLeadWS_collapseWSAux_true (l : List Char) :
    noLeadWS (collapseWSAux true l) = true := by
  induction l with
  | nil => rfl
  | cons c rest ih =>
    by_cases h : isPySpace c = true
    · simpa [collapseWSAux, h] using ih
    · simp only [Bool.not_eq_true] at h
      simp [collapseWSAux, h, noLeadWS_cons]

/-- Without leading whitespace the two run states agree. -/
theorem collapseWSAux_true_of_noLead (l : List Char)
    (h : noLeadWS l = true) :
    collapseWSAux true l = collapseWSAux false l := by
  cases l with
  | nil => rfl
  | cons c rest =>
    rw [noLeadWS_cons, Bool.not_eq_eq_eq_not, Bool.not_true] at h
    simp [collapseWSAux, h]

/-- The collapsing pass outputs normalised whitespace. -/
theorem wsNorm_collapseWSAux (l : List Char) :
    ∀ b, wsNorm (collapseWSAux b l) = true := by
  induction l with
  | nil => intro b; rfl
  | cons c rest ih =>
    intro b
    by_cases h : isPySpace c = true
    · cases b with
      | true => simpa [collapseWSAux, h] using ih true
      | false =>
        simp only [collapseWSAux, h, if_pos, if_true]
        show wsNorm (' ' :: collapseWSAux true rest) = true
        unfold wsNorm
        rw [noLeadWS_collapseWSAux_true, ih true]
        decide
    · simp only [Bool.not_eq_true] at h
      simp only [collapseWSAux, h, Bool.false_eq_true, if_false]
      unfold wsNorm
      rw [ih false, h]
      simp

/-- The collapsing pass is the identity on normalised whitespace. -/
theorem collapseWSAux_false_of_wsNorm (l : List Char)
    (h : wsNorm l = true) : collapseWSAux false l = l := by
  induction l with
  | nil => rfl
  | cons c rest ih =>
    unfold wsNorm at h
    rw [Bool.and_eq_true] at h
    obtain ⟨hc, hrest⟩ := h
    by_cases hws : isPySpace c = true
    · rw [hws] at hc
      simp only [Bool.not_true, Bool.false_or, Bool.and_eq_true,
        decide_eq_true_eq] at hc
      obtain ⟨hsp, hlead⟩ := hc
      simp only [collapseWSAux, hws, if_pos, if_true]
      rw [if_neg Bool.false_ne_true,
          collapseWSAux_true_of_noLead rest hlead, ih hrest, hsp]
    · simp only [Bool.not_eq_true] at hws
      simp only [collapseWSAux, hws, Bool.false_eq_true, if_false]
      rw [ih hrest]

/-- The collapsing pass keeps a clean leading edge. -/
theorem noLeadWS_collapseWSAux_false (l : List Char)
    (h : noLeadWS l = true) :
    noLeadWS (collapseWSAux false l) = true := by
  cases l with
  | nil => rfl
  | cons c rest =>
    rw [noLeadWS_cons, Bool.not_eq_eq_eq_not, Bool.not_true] at h
    simp [collapseWSAux, h, noLeadWS_cons]

/-- The collapsing pass returns `[]` in the clean state only on `[]`. -/
theorem collapseWSAux_false_nil_iff (l : List Char) :
    collapseWSAux false l = [] ↔ l = [] := by
  cases l with
  | nil => simp [collapseWSAux]
  | cons c rest =>
    constructor
    · intro h
      by_cases hws : isPySpace c = true <;> simp [collapseWSAux, hws] at h
    · intro h
      exact absurd h (List.cons_ne_nil c rest)

/-- The collapsing pass in the run state returns `[]` exactly on
all-whitespace input. -/
theorem collapseWSAux_true_nil_iff (l : List Char) :
    collapseWSAux true l = [] ↔ (l.all fun c => isPySpace c) = true := by
  induction l with
  | nil => simp [collapseWSAux]
  | cons c rest ih =>
    by_cases hws : isPySpace c = true
    · simpa [collapseWSAux, hws] using ih
    · simp only [Bool.not_eq_true] at hws
      simp [collapseWSAux, hws]

/-- All-whitespace non-empty input has a whitespace trailing edge. -/
theorem noTrailWS_false_of_all_ws (l : List Char) (hne : l ≠ [])
    (hall : (l.all fun c => isPySpace c) = true) :
    noTrailWS l = false := by
  have hlast : l.getLast? = some (l.getLast hne) :=
    List.getLast?_eq_getLast_of_ne_nil hne
  have hmem : l.getLast hne ∈ l := List.getLast_mem hne
  have hws : isPySpace (l.getLast hne) = true :=
    List.all_eq_true.1 hall _ hmem
  unfold noTrailWS
  rw [hlast]
  simp [hws]

/-- Dropping the head of a longer list keeps its trailing character. -/
theorem getLast?_cons_of_ne_nil (c : Char) (l : List Char) (h : l ≠ []) :
    (c :: l).getLast? = l.getLast? := by
  cases l with
  | nil => exact absurd rfl h
  | cons d rest => exact List.getLast?_cons_cons

/-- The collapsing pass keeps a clean trailing edge. -/
theorem noTrailWS_collapseWSAux (l : List Char) :
    ∀ b, noTrailWS l = true → noTrailWS (collapseWSAux b l) = true := by
  induction l with
  | nil => intro b _; cases b <;> rfl
  | cons c rest ih =>
    intro b h
    by_cases hrest : rest = []
    · subst hrest
      by_cases hws : isPySpace c = true
      · unfold noTrailWS at h
        simp only [List.getLast?_singleton, Option.all_some, hws] at h
        simp at h
      · simp only [Bool.not_eq_true] at hws
        cases b <;>
          simp [collapseWSAux, hws, noTrailWS, List.getLast?_singleton]
    · have hlast : (c :: rest).getLast? = rest.getLast? :=
        getLast?_cons_of_ne_nil c rest hrest
      have hres : noTrailWS rest = true := by
        unfold noTrailWS at h ⊢
        rw [hlast] at h
        exact h
      by_cases hws : isPySpace c = true
      · cases b with
        | true => simpa [collapseWSAux, hws] using ih true hres
        | false =>
          simp only [collapseWSAux, hws, if_pos, if_true]
          rw [if_neg Bool.false_ne_true]
          by_cases hall : (rest.all fun d => isPySpace d) = true
          · exact absurd (noTrailWS_false_of_all_ws rest hrest hall)
              (by rw [hres]; simp)
          · have hne2 : collapseWSAux true rest ≠ [] := by
              intro hnil
              exact hall ((collapseWSAux_true_nil_iff rest).1 hnil)
            unfold noTrailWS
            rw [getLast?_cons_of_ne_nil ' ' _ hne2]
            exact ih true hres
      · simp only [Bool.not_eq_true] at hws
        have hne2 : collapseWSAux false rest ≠ [] := by
          intro hnil
          exact hrest ((collapseWSAux_false_nil_iff rest).1 hnil)
        cases b <;>
          · simp only [collapseWSAux, hws, Bool.false_eq_true, if_false]
            unfold noTrailWS
            rw [getLast?_cons_of_ne_nil c _ hne2]
            exact ih false hres

/-! Shape lemmas for the reserved-character stage. -/

/-- The reserved-character pass leaves no reserved characters. -/
theorem noReserved_replaceReservedAux (l : List Char) :
    ∀ b, noReserved (replaceReservedAux b l) = true := by
  induction l with
  | nil => intro b; cases b <;> rfl
  | cons c rest ih =>
    intro b
    by_cases h : isReserved c = true
    · cases b with
      | true => simpa [replaceReservedAux, h] using ih true
      | false =>
        simp only [replaceReservedAux, h, if_pos, if_true]
        rw [if_neg Bool.false_ne_true]
        simpa [noReserved, show isReserved '_' = false from by decide]
          using ih true
    · simp only [Bool.not_eq_true] at h
      simp only [replaceReservedAux, h, Bool.false_eq_true, if_false]
      simpa [noReserved, h] using ih false

/-- The reserved-character pass is the identity when no reserved
character occurs. -/
theorem replaceReservedAux_false_of_noReserved (l : List Char)
    (h : noReserved l = true) : replaceReservedAux false l = l := by
  induction l with
  | nil => rfl
  | cons c rest ih =>
    simp only [noReserved, List.all_cons, Bool.and_eq_true,
      Bool.not_eq_eq_eq_not, Bool.not_true] at h
    obtain ⟨hc, hrest⟩ := h
    simp only [replaceReservedAux, hc, Bool.false_eq_true, if_false]
    rw [ih hrest]

/-- The reserved-character pass in the clean state returns `[]` only on
`[]`. -/
theorem replaceReservedAux_false_nil_iff (l : List Char) :
    replaceReservedAux false l = [] ↔ l = [] := by
  cases l with
  | nil => simp [replaceReservedAux]
  | cons c rest =>
    constructor
    · intro h
      by_cases hres : isReserved c = true <;>
        simp [replaceReservedAux, hres] at h
    · intro h
      exact absurd h (List.cons_ne_nil c rest)

/-- The reserved-character pass keeps a clean leading edge. -/
theorem noLeadWS_replaceReservedAux_false (l : List Char)
    (h : noLeadWS l = true) :
    noLeadWS (replaceReservedAux false l) = true := by
  cases l with
  | nil => rfl
  | cons c rest =>
    by_cases hres : isReserved c = true
    · simp only [replaceReservedAux, hres, if_pos, if_true]
      rw [if_neg Bool.false_ne_true, noLeadWS_cons]
      decide
    · simp only [Bool.not_eq_true] at hres
      simp only [replaceReservedAux, hres, Bool.false_eq_true, if_false,
        noLeadWS_cons]
      rw [noLeadWS_cons] at h
      exact h

/-- The reserved-character pass keeps a clean trailing edge. -/
theorem noTrailWS_replaceReservedAux (l : List Char) :
    ∀ b, noTrailWS l = true → noTrailWS (replaceReservedAux b l) = true := by
  induction l with
  | nil => intro b _; cases b <;> rfl
  | cons c rest ih =>
    intro b h
    by_cases hrest : rest = []
    · subst hrest
      by_cases hres : isReserved c = true
      · cases b with
        | true => simp [replaceReservedAux, hres, noTrailWS]
        | false =>
          simp only [replaceReservedAux, hres, if_pos, if_true]
          rw [if_neg Bool.false_ne_true]
          simp [replaceReservedAux, noTrailWS, List.getLast?_singleton,
            show isPySpace '_' = false from by decide]
      · simp only [Bool.not_eq_true] at hres
        cases b <;>
          · simp only [replaceReservedAux, hres, Bool.false_eq_true,
              if_false]
            exact h
    · have hres2 : noTrailWS rest = true := by
        unfold noTrailWS at h ⊢
        rw [getLast?_cons_of_ne_nil c rest hrest] at h
        exact h
      by_cases hres : isReserved c = true
      · cases b with
        | true => simpa [replaceReservedAux, hres] using ih true hres2
        | false =>
          simp only [replaceReservedAux, hres, if_pos, if_true]
          rw [if_neg Bool.false_ne_true]
          cases hne : replaceReservedAux true rest with
          | nil =>
            simp [noTrailWS, List.getLast?_singleton,
              show isPySpace '_' = false from by decide]
          | cons d t =>
            unfold noTrailWS
            rw [getLast?_cons_of_ne_nil '_' _ (by simp [hne])]
            rw [← hne]
            exact ih true hres2
      · simp only [Bool.not_eq_true] at hres
        have hne2 : replaceReservedAux false rest ≠ [] := by
          intro hnil
          exact hrest ((replaceReservedAux_false_nil_iff rest).1 hnil)
        cases b <;>
          · simp only [replaceReservedAux, hres, Bool.false_eq_true,
              if_false]
            unfold noTrailWS
            rw [getLast?_cons_of_ne_nil c _ hne2]
            exact ih false hres2

/-- The reserved-character pass keeps whitespace normalised. -/
theorem wsNorm_replaceReservedAux (l : List Char) :
    ∀ b, wsNorm l = true → wsNorm (replaceReservedAux b l) = true := by
  induction l with
  | nil => intro b _; cases b <;> rfl
  | cons c rest ih =>
    intro b h
    unfold wsNorm at h
    rw [Bool.and_eq_true] at h
    obtain ⟨hc, hrest⟩ := h
    by_cases hres : isReserved c = true
    · cases b with
      | true => simpa [replaceReservedAux, hres] using ih true hrest
      | false =>
        simp only [replaceReservedAux, hres, if_pos, if_true]
        rw [if_neg Bool.false_ne_true]
        unfold wsNorm
        rw [ih true hrest]
        have hu : isPySpace '_' = false := by decide
        simp [hu]
    · simp only [Bool.not_eq_true] at hres
      simp only [replaceReservedAux, hres, Bool.false_eq_true, if_false]
      unfold wsNorm
      rw [ih false hrest, Bool.and_true]
      by_cases hws : isPySpace c = true
      · rw [hws] at hc
        simp only [Bool.not_true, Bool.false_or, Bool.and_eq_true,
          decide_eq_true_eq] at hc
        obtain ⟨hsp, hlead⟩ := hc
        rw [hws, hsp]
        simp [noLeadWS_replaceReservedAux_false rest hlead]
      · simp only [Bool.not_eq_true] at hws
        simp [hws]

/-! Assembly: the sanitising pipeline is idempotent. -/

/-- Shape invariants of the sanitising pipeline's output. -/
theorem cleanCore_shape (l : List Char) :
    noLeadWS (cleanCore l) = true ∧ noTrailWS (cleanCore l) = true ∧
    wsNorm (cleanCore l) = true ∧ noReserved (cleanCore l) = true := by
  unfold cleanCore collapseWS replaceReserved
  set s := pyStrip l with hs
  have h1 : noLeadWS s = true := noLeadWS_pyStrip l
  have h2 : noTrailWS s = true := noTrailWS_pyStrip l
  set c1 := collapseWSAux false s with hc1
  have h3 : noLeadWS c1 = true := noLeadWS_collapseWSAux_false s h1
  have h4 : noTrailWS c1 = true := noTrailWS_collapseWSAux s false h2
  have h5 : wsNorm c1 = true := wsNorm_collapseWSAux s false
  exact ⟨noLeadWS_replaceReservedAux_false c1 h3,
    noTrailWS_replaceReservedAux c1 false h4,
    wsNorm_replaceReservedAux c1 false h5,
    noReserved_replaceReservedAux c1 false⟩

/-- The sanitising pipeline fixes any list with its output's shape. -/
theorem cleanCore_of_clean (l : List Char)
    (h1 : noLeadWS l = true) (h2 : noTrailWS l = true)
    (h3 : wsNorm l = true) (h4 : noReserved l = true) :
    cleanCore l = l := by
  unfold cleanCore collapseWS replaceReserved
  rw [pyStrip_of_clean l h1 h2, collapseWSAux_false_of_wsNorm l h3,
      replaceReservedAux_false_of_noReserved l h4]

/-- Idempotence of the sanitising pipeline. -/
theorem cleanCore_idem (l : List Char) :
    cleanCore (cleanCore l) = cleanCore l := by
  obtain ⟨h1, h2, h3, h4⟩ := cleanCore_shape l
  exact cleanCore_of_clean (cleanCore l) h1 h2 h3 h4

/-! Claim theorems. -/

/-- Claim C1, counterexample: for the non-empty row list
`[(dict with key a), (dict with key b)]` the columns of
`pd.DataFrame(rows)` are not the keys of the first row — the key of the
second row is appended — so the claim as stated is false. -/
theorem claim_C1_counterexample :
    (normalize [[("a", .jint 1)], [("b", .jint 2)]]).columns ≠
      rowKeys [("a", JVal.jint 1)] ∧
    (normalize [[("a", .jint 1)], [("b", .jint 2)]]).columns =
      ["a", "b"] := by
  constructor
  · decide
  · decide

/-- Claim C1, amended: for every non-empty row list whose first row has
distinct keys and whose later rows only use keys of the first row, the
columns of the normalised table are exactly the keys of the first row in
their original order (in particular the key order of later rows is
irrelevant; later rows that introduce new keys instead get those keys
appended to the column list). -/
theorem claim_C1_amended (r : Row) (rs : List Row)
    (hnd : (rowKeys r).Nodup)
    (hsub : ∀ row ∈ rs, ∀ kv ∈ row, kv.1 ∈ rowKeys r) :
    (normalize (r :: rs)).columns = rowKeys r := by
  have h1 : addKeys [] r = rowKeys r := by
    simpa using addKeys_of_disjoint r [] hnd (by simp)
  show dfColumns (r :: rs) = rowKeys r
  rw [dfColumns, List.foldl_cons, h1]
  exact foldl_addKeys_of_subset rs (rowKeys r) hsub

/-- Claim C1, witness for the amended theorem: the spec scenario with the
second row's keys in swapped order. -/
theorem claim_C1_amended_witness :
    ((rowKeys [("a", JVal.jint 1), ("b", JVal.jint 2)]).Nodup ∧
      ∀ row ∈ [[("b", JVal.jint 3), ("a", JVal.jint 4)]],
        ∀ kv ∈ row, kv.1 ∈ rowKeys [("a", JVal.jint 1), ("b", JVal.jint 2)]) ∧
    (normalize [[("a", JVal.jint 1), ("b", JVal.jint 2)],
                [("b", JVal.jint 3), ("a", JVal.jint 4)]]).columns =
      rowKeys [("a", JVal.jint 1), ("b", JVal.jint 2)] :=
  ⟨⟨by decide, by decide⟩,
    claim_C1_amended [("a", JVal.jint 1), ("b", JVal.jint 2)]
      [[("b", JVal.jint 3), ("a", JVal.jint 4)]] (by decide) (by decide)⟩

/-- Claim C3: on the spec scenario rows, normalisation yields columns
a, b with rows (1, 2) and (4, 3), and the encoder produces exactly the
UTF-8 bytes of the CSV body with header and no index column. -/
theorem claim_C3_scenario :
    normalize [[("a", .jint 1), ("b", .jint 2)],
               [("b", .jint 3), ("a", .jint 4)]] =
      { columns := ["a", "b"]
        rows := [[some (.jint 1), some (.jint 2)],
                 [some (.jint 4), some (.jint 3)]] } ∧
    convert_df_to_csv (normalize [[("a", .jint 1), ("b", .jint 2)],
                                  [("b", .jint 3), ("a", .jint 4)]]) =
      utf8Bytes "a,b\n1,2\n4,3\n" := by
  constructor
  · decide
  · decide

/-- Claim C6: the empty row list normalises to the table with no columns
and no rows. -/
theorem claim_C6_empty :
    normalize [] = { columns := [], rows := [] } := rfl

/-- Claim C7: every row of the normalised table consists of exactly the
cells of the table's columns, in column order; a column missing from the
underlying record is filled with the missing-value marker, never
dropped. -/
theorem claim_C7_row_shape (rows : List Row) (i : Nat) (r : Row)
    (hr : rows[i]? = some r) :
    (normalize rows).rows[i]? =
      some ((normalize rows).columns.map fun k => lookupKey r k) ∧
    ∀ k ∈ (normalize rows).columns, k ∉ rowKeys r → lookupKey r k = none := by
  constructor
  · simp [normalize, List.getElem?_map, hr]
  · intro k _ hk
    have hno : ∀ kv ∈ r, ¬ (kv.1 = k) := by
      intro kv hkv he
      exact hk (he ▸ List.mem_map_of_mem Prod.fst hkv)
    have hfind : (r.find? fun kv => kv.1 = k) = none := by
      rw [List.find?_eq_none]
      intro kv hkv
      simpa using hno kv hkv
    simp [lookupKey, hfind]

/-- Claim C7, witness: second row of a two-row input lacking the first
row's key; its cell under that column is the marker. -/
theorem claim_C7_row_shape_witness :
    ([[("a", JVal.jint 1)], [("b", JVal.jint 2)]] : List Row)[1]? =
      some [("b", JVal.jint 2)] ∧
    ((normalize [[("a", JVal.jint 1)], [("b", JVal.jint 2)]]).rows[1]? =
      some ((normalize [[("a", JVal.jint 1)], [("b", JVal.jint 2)]]).columns.map
        fun k => lookupKey [("b", JVal.jint 2)] k) ∧
    ∀ k ∈ (normalize [[("a", JVal.jint 1)], [("b", JVal.jint 2)]]).columns,
      k ∉ rowKeys [("b", JVal.jint 2)] →
        lookupKey [("b", JVal.jint 2)] k = none) :=
  ⟨by decide,
    claim_C7_row_shape [[("a", JVal.jint 1)], [("b", JVal.jint 2)]] 1
      [("b", JVal.jint 2)] (by decide)⟩

/-- Claim C8: the CSV encoder is a pure, deterministic function — two
evaluations on equal table values produce byte-identical output. -/
theorem claim_C8_deterministic (t1 t2 : ResultTable) (h : t1 = t2) :
    convert_df_to_csv t1 = convert_df_to_csv t2 := by
  rw [h]

/-- Claim C8, witness: the determinism theorem applied at the scenario
table. -/
theorem claim_C8_deterministic_witness :
    normalize [[("a", JVal.jint 1)]] = normalize [[("a", JVal.jint 1)]] ∧
    convert_df_to_csv (normalize [[("a", JVal.jint 1)]]) =
      convert_df_to_csv (normalize [[("a", JVal.jint 1)]]) :=
  ⟨rfl, claim_C8_deterministic _ _ rfl⟩

/-- Claim C4: with a non-empty key, every failing fetch attempt — a
response lacking `result.rows`, an HTTP status error, a network error,
or any other exception — clears the stored payload and emits the
messages specific to that failure kind. -/
theorem claim_C4_failure_clears (st : SessionState) (utc_ts : String)
    (h : st.user_api_key ≠ "") :
    (∀ d, (fetchHandler st utc_ts (.success (.malformed d))).1.download_payload
        = none ∧
      (fetchHandler st utc_ts (.success (.malformed d))).2.1 =
        [.error "API response not in expected format.",
         .jsonDump (.malformed d)]) ∧
    (∀ status reason,
      (fetchHandler st utc_ts (.httpError status reason)).1.download_payload
        = none ∧
      (fetchHandler st utc_ts (.httpError status reason)).2.1 =
        [.error ("HTTP error: " ++ toString status ++ " " ++ reason),
         .error "Check API key and Query ID."]) ∧
    (∀ d, (fetchHandler st utc_ts (.networkError d)).1.download_payload
        = none ∧
      (fetchHandler st utc_ts (.networkError d)).2.1 =
        [.error ("Network error: " ++ d)]) ∧
    (∀ d, (fetchHandler st utc_ts (.otherError d)).1.download_payload
        = none ∧
      (fetchHandler st utc_ts (.otherError d)).2.1 =
        [.error ("Unexpected error: " ++ d)]) := by
  refine ⟨fun d => ?_, fun status reason => ?_, fun d => ?_, fun d => ?_⟩ <;>
    simp [fetchHandler, h]

/-- Claim C4, witness: a 403 HTTP failure on a state holding a stale
payload leaves no payload behind. -/
theorem claim_C4_failure_clears_witness :
    ({ user_api_key := "k", query_id := 1,
       download_payload := some
         { csv_bytes := [], default_filename := "f.csv"
           df_preview := { columns := [], rows := [] }
           meta_rows := 0, meta_generated_at := "t", meta_query_id := 1 } } :
      SessionState).user_api_key ≠ "" ∧
    (fetchHandler
      { user_api_key := "k", query_id := 1,
        download_payload := some
          { csv_bytes := [], default_filename := "f.csv"
            df_preview := { columns := [], rows := [] }
            meta_rows := 0, meta_generated_at := "t", meta_query_id := 1 } }
      "ts" (.httpError 403 "Forbidden")).1.download_payload = none ∧
    (fetchHandler
      { user_api_key := "k", query_id := 1,
        download_payload := some
          { csv_bytes := [], default_filename := "f.csv"
            df_preview := { columns := [], rows := [] }
            meta_rows := 0, meta_generated_at := "t", meta_query_id := 1 } }
      "ts" (.httpError 403 "Forbidden")).2.1 =
      [.error ("HTTP error: " ++ toString 403 ++ " " ++ "Forbidden"),
       .error "Check API key and Query ID."] := by
  refine ⟨by decide, ?_⟩
  exact (claim_C4_failure_clears _ "ts" (by decide)).2.1 403 "Forbidden"

/-- Claim C5: a fetch click with an empty API key makes no network call,
emits exactly the validation warning, and leaves the session state — in
particular the stored payload — unchanged. -/
theorem claim_C5_empty_key (st : SessionState) (utc_ts : String)
    (outcome : FetchOutcome) (h : st.user_api_key = "") :
    fetchHandler st utc_ts outcome =
      (st, [.warning "Please enter your Dune API key to proceed."], false) := by
  simp [fetchHandler, h]

/-- Claim C5, witness: a concrete state with a stored payload and an
empty key, against an outcome that would have succeeded. -/
theorem claim_C5_empty_key_witness :
    ({ user_api_key := "", query_id := 7,
       download_payload := some
         { csv_bytes := [1], default_filename := "f.csv"
           df_preview := { columns := [], rows := [] }
           meta_rows := 0, meta_generated_at := "t", meta_query_id := 7 } } :
      SessionState).user_api_key = "" ∧
    fetchHandler
      { user_api_key := "", query_id := 7,
        download_payload := some
          { csv_bytes := [1], default_filename := "f.csv"
            df_preview := { columns := [], rows := [] }
            meta_rows := 0, meta_generated_at := "t", meta_query_id := 7 } }
      "ts" (.success (.withRows [])) =
      ({ user_api_key := "", query_id := 7,
         download_payload := some
           { csv_bytes := [1], default_filename := "f.csv"
             df_preview := { columns := [], rows := [] }
             meta_rows := 0, meta_generated_at := "t", meta_query_id := 7 } },
       [.warning "Please enter your Dune API key to proceed."], false) :=
  ⟨rfl, claim_C5_empty_key _ "ts" (.success (.withRows [])) rfl⟩

/-- Claim C10: a rerun that only edits the input fields (fetch button not
clicked) keeps the stored payload intact, and the download section keeps
serving the same bytes, filename, preview and metadata as before the
edit. -/
theorem claim_C10_edit_preserves (st : SessionState)
    (newKey : String) (newQid : Nat) (utc_ts : String)
    (outcome : FetchOutcome) (raw_name : String) :
    (rerun st newKey newQid false utc_ts outcome).1.download_payload =
      st.download_payload ∧
    downloadSection (rerun st newKey newQid false utc_ts outcome).1
        raw_name =
      downloadSection st raw_name := by
  constructor
  · simp [rerun, rerunInputs]
  · simp [rerun, rerunInputs, downloadSection]

/-! Equivalence of the in-run flag passes with explicit run collapsing. -/

/-- The in-run state amounts to first dropping the rest of the
whitespace run. -/
theorem collapseWSAux_true_eq_dropWhile (l : List Char) :
    collapseWSAux true l =
      collapseWSAux false (l.dropWhile fun c => isPySpace c) := by
  induction l with
  | nil => rfl
  | cons c rest ih =>
    by_cases h : isPySpace c = true
    · simpa [collapseWSAux, h, List.dropWhile_cons] using ih
    · simp only [Bool.not_eq_true] at h
      simp [collapseWSAux, h, List.dropWhile_cons]

/-- The whitespace pass is run collapsing with marker a space. -/
theorem collapseWS_eq_collapseRuns (l : List Char) :
    collapseWSAux false l = collapseRuns isPySpace ' ' l := by
  induction l using collapseRuns.induct isPySpace ' ' with
  | case1 => simp [collapseRuns, collapseWSAux]
  | case2 c rest h ih =>
    have h1 : collapseWSAux false (c :: rest) =
        ' ' :: collapseWSAux true rest := by
      simp [collapseWSAux, h]
    rw [h1, collapseWSAux_true_eq_dropWhile rest, ih]
    simp [collapseRuns, h]
  | case3 c rest h ih =>
    have h1 : collapseWSAux false (c :: rest) =
        c :: collapseWSAux false rest := by
      simp [collapseWSAux, h]
    rw [h1, ih]
    simp [collapseRuns, h]

/-- The in-run state amounts to first dropping the rest of the reserved
run. -/
theorem replaceReservedAux_true_eq_dropWhile (l : List Char) :
    replaceReservedAux true l =
      replaceReservedAux false (l.dropWhile fun c => isReserved c) := by
  induction l with
  | nil => rfl
  | cons c rest ih =>
    by_cases h : isReserved c = true
    · simpa [replaceReservedAux, h, List.dropWhile_cons] using ih
    · simp only [Bool.not_eq_true] at h
      simp [replaceReservedAux, h, List.dropWhile_cons]

/-- The reserved pass is run collapsing with marker an underscore. -/
theorem replaceReserved_eq_collapseRuns (l : List Char) :
    replaceReservedAux false l = collapseRuns isReserved '_' l := by
  induction l using collapseRuns.induct isReserved '_' with
  | case1 => simp [collapseRuns, replaceReservedAux]
  | case2 c rest h ih =>
    have h1 : replaceReservedAux false (c :: rest) =
        '_' :: replaceReservedAux true rest := by
      simp [replaceReservedAux, h]
    rw [h1, replaceReservedAux_true_eq_dropWhile rest, ih]
    simp [collapseRuns, h]
  | case3 c rest h ih =>
    have h1 : replaceReservedAux false (c :: rest) =
        c :: replaceReservedAux false rest := by
      simp [replaceReservedAux, h]
    rw [h1, ih]
    simp [collapseRuns, h]

/-- Unfolding equation of the sanitiser. -/
theorem safe_filename_eq (name default : String) :
    safe_filename name default =
      if cleanCore name.data = [] then default
      else String.mk (cleanCore name.data) := rfl

/-- Claim C2, counterexample: on the input with a run of two slashes the
source collapses the run to one underscore, while the claim's
per-occurrence reading requires two; so the claim as stated is false. -/
theorem claim_C2_counterexample :
    sanitizeSpecC2 "a//b" "d" = "a__b" ∧
    safe_filename "a//b" "d" = "a_b" ∧
    safe_filename "a//b" "d" ≠ sanitizeSpecC2 "a//b" "d" := by
  refine ⟨by decide, by decide, by decide⟩

/-- Claim C2, amended: the sanitiser performs, in order, a trim of
leading and trailing whitespace, the collapsing of each internal
whitespace run to one space, the replacement of each maximal run of
reserved characters by one underscore, and the fallback on an empty
result; in particular the two examples of the claim hold. -/
theorem claim_C2_amended :
    (∀ name default, safe_filename name default =
      sanitizeRunsSpec name default) ∧
    safe_filename "" "d" = "d" ∧
    safe_filename "a/b:c" "d" = "a_b_c" := by
  refine ⟨fun name default => ?_, by decide, by decide⟩
  simp only [safe_filename, sanitizeRunsSpec, cleanCore, collapseWS,
    replaceReserved]
  rw [collapseWS_eq_collapseRuns, replaceReserved_eq_collapseRuns]

/-- Claim C9, counterexample: idempotence fails in general — when the
name sanitises to the empty string, the fallback is returned unsanitised,
and a second pass changes a fallback that holds a reserved character. -/
theorem claim_C9_counterexample :
    safe_filename "" "a/b" = "a/b" ∧
    safe_filename (safe_filename "" "a/b") "a/b" = "a_b" ∧
    safe_filename (safe_filename "" "a/b") "a/b" ≠
      safe_filename "" "a/b" := by
  refine ⟨by decide, by decide, by decide⟩

/-- Claim C9, amended: sanitisation is idempotent for every input
whenever the fallback is itself clean (a fixed point of the sanitising
pipeline); on outputs that do not come from the fallback this is the
idempotence of the pipeline itself. -/
theorem claim_C9_amended (x f : String)
    (hf : cleanCore f.data = f.data) :
    safe_filename (safe_filename x f) f = safe_filename x f := by
  by_cases h : cleanCore x.data = []
  · have h1 : safe_filename x f = f := by
      rw [safe_filename_eq, if_pos h]
    rw [h1, safe_filename_eq, hf]
    by_cases h2 : f.data = []
    · rw [if_pos h2]
    · rw [if_neg h2]
  · have h1 : safe_filename x f = String.mk (cleanCore x.data) := by
      rw [safe_filename_eq, if_neg h]
    rw [h1, safe_filename_eq,
        show (String.mk (cleanCore x.data)).data = cleanCore x.data from rfl,
        cleanCore_idem, if_neg h]

/-- Claim C9, witness for the amended theorem: a clean fallback and an
input needing a trim. -/
theorem claim_C9_amended_witness :
    cleanCore "d".data = "d".data ∧
    safe_filename (safe_filename " a " "d") "d" =
      safe_filename " a " "d" :=
  ⟨by decide, claim_C9_amended " a " "d" (by decide)⟩

end Dune
